import Mathlib

/-!
Shallow embedding of the dispatch core of the `routix` HTTP router
(router.go, the router half of constraints.go, middleware.go, errors.go).

Modelling conventions:
* Go `map[string]V` values are association lists `List (String × V)`;
  `lookupA` is map indexing, `updateA` is map assignment, `deleteA` is
  `delete(m, k)`.  Only lookups matter to the theorems, so the physical
  order of entries is irrelevant.
* Handlers (`func(*Context) error` in Go) are an abstract type `α`; a
  middleware (`func(Handler) Handler`) is a function `α → α`.
* `time.Time` instants are `Nat` ticks; `t.Before(u)` is `t < u` and
  `now.Add(d)` is `now + d`.
* Go byte indexing of ASCII path strings is modelled with `String.drop`
  and the structural splitter `splitOnChar`: for a path starting with
  `'/'`, `strings.Split(path, "/")[1:]` is `(splitOnChar '/' path).tail`
  and the byte scan of `findHandlerOptimized` visits exactly the entries
  of `splitOnChar '/' (path.drop 1)`, skipping empty ones; the wildcard
  capture `path[start:]` is `String.intercalate "/"` of the raw
  remainder (the separators between the remaining raw parts are
  preserved verbatim).
-/

namespace Routix

/-- `strings.Split(s, sep)` for the single-character separators the
router uses ('/', '&', '='): split `s` at every occurrence of `sep`,
keeping empty pieces, so that splitting "" gives [""] and splitting "/"
gives ["", ""]. -/
def splitCharAux (sep : Char) : List Char → List Char → List String
  | [], acc => [String.mk acc.reverse]
  | c :: cs, acc =>
    if c == sep then String.mk acc.reverse :: splitCharAux sep cs []
    else splitCharAux sep cs (c :: acc)

def splitOnChar (sep : Char) (s : String) : List String :=
  splitCharAux sep s.toList []

/-- Go map read `m[k]`: the value stored under `k`, if any. -/
def lookupA {β : Type} (l : List (String × β)) (k : String) : Option β :=
  (l.find? (fun p => p.1 == k)).map (fun p => p.2)

/-- Go map write `m[k] = v`: replace the binding of `k`, or add one. -/
def updateA {β : Type} : List (String × β) → String → β → List (String × β)
  | [], k, v => [(k, v)]
  | (k0, v0) :: rest, k, v =>
    if k0 == k then (k, v) :: rest else (k0, v0) :: updateA rest k v

/-- Go map `delete(m, k)`. -/
def deleteA {β : Type} (l : List (String × β)) (k : String) : List (String × β) :=
  l.filter (fun p => p.1 != k)

/-- Routing-tree node (`node` in router.go / constraints.go): static
children keyed by segment, the parameter child under key ":", the
wildcard child under key "*", and per-method terminal handlers. -/
inductive RNode (α : Type) : Type where
  | mk (path : String) (handlers : List (String × α))
      (children : List (String × RNode α)) (params : List String)
      (wildcard : Bool)

def RNode.path {α : Type} : RNode α → String
  | .mk p _ _ _ _ => p

def RNode.handlers {α : Type} : RNode α → List (String × α)
  | .mk _ h _ _ _ => h

def RNode.children {α : Type} : RNode α → List (String × RNode α)
  | .mk _ _ c _ _ => c

def RNode.params {α : Type} : RNode α → List String
  | .mk _ _ _ ps _ => ps

def RNode.wildcard {α : Type} : RNode α → Bool
  | .mk _ _ _ _ w => w

/-- The zero-value root node `&node{handlers: make(...), children: make(...)}`. -/
def RNode.empty {α : Type} : RNode α := .mk "" [] [] [] false

/-- `root.handlers[method] = handler`. -/
def setHandler {α : Type} (n : RNode α) (method : String) (h : α) : RNode α :=
  match n with
  | .mk p hs ch ps w => .mk p (updateA hs method h) ch ps w

/-- The registration loop of `Handle` (router.go:98-142, constraints.go:305-346),
as a function of the remaining split parts.  Empty parts are skipped; a part
beginning with ':' creates or reuses the single parameter child (recording the
parameter name only on creation), a part "*" the single wildcard child, any
other part a static child.  The handler is stored on the node reached by the
part at the last index of the list — so a path whose final split part is
empty never stores its handler. -/
def insertParts {α : Type} : RNode α → List String → String → α → RNode α
  | n, [], _, _ => n
  | n, part :: rest, method, h =>
    if part == "" then insertParts n rest method h
    else
      let key := if part.front == ':' then ":"
        else if part == "*" then "*" else part
      let child :=
        match lookupA n.children key with
        | some c => c
        | none =>
          if part.front == ':' then RNode.mk part [] [] [part.drop 1] true
          else if part == "*" then RNode.mk part [] [] [] true
          else RNode.mk part [] [] [] false
      let child1 := insertParts child rest method h
      let child2 := if rest.isEmpty then setHandler child1 method h else child1
      match n with
      | .mk p hs ch ps w => .mk p hs (updateA ch key child2) ps w

/-- Captured path parameters for one request (`map[string]string`). -/
abbrev Params := List (String × String)

/-- Request-URL data the dispatch core reads: `req.URL.Path` and
`req.URL.RawQuery`. -/
structure URL where
  path : String
  rawQuery : String
deriving DecidableEq

/-- `URL.String()` for a server-side request URL (no scheme, host, user or
fragment are set on URLs of inbound requests): the path followed by
"?" and the raw query when the latter is nonempty. -/
def urlString (u : URL) : String :=
  u.path ++ (if u.rawQuery == "" then "" else "?" ++ u.rawQuery)

structure Request where
  url : URL
  method : String
deriving DecidableEq

/-- A cached response (the anonymous struct stored in `Router.cache` and in
the `Cache` middleware's map): body bytes, headers, status code and the
absolute expiry instant. -/
structure CacheEntry where
  response : String
  headers : List (String × String)
  code : Nat
  expires : Nat
deriving DecidableEq

abbrev CacheMap := List (String × CacheEntry)

/-- The router (`Router` in constraints.go), restricted to the fields the
dispatch core reads: the per-method trees, the global middleware list and
the response cache.  The `notFound` / `notMethod` handlers are modelled as
dispatch outcomes (`Branch` below) rather than stored functions. -/
structure Router (α : Type) where
  trees : List (String × RNode α)
  middleware : List (α → α)
  cache : CacheMap

def Router.empty {α : Type} : Router α := ⟨[], [], []⟩

/-- `Router.Handle` (constraints.go:284-347).  A path not starting with '/'
is prefixed with one; the method's tree is created on demand; the route
`"/"` stores its handler directly at the root; otherwise the parts of
`strings.Split(path, "/")[1:]` are inserted.  (Go panics on an empty path
at `path[0]`; the model leaves the empty path as a no-op insertion.) -/
def Router.handle {α : Type} (r : Router α) (method path0 : String) (h : α) :
    Router α :=
  let path := if path0 == "" then path0
    else if path0.front == '/' then path0 else "/" ++ path0
  let root := (lookupA r.trees method).getD RNode.empty
  let root1 :=
    if path == "/" then setHandler root method h
    else insertParts root (splitOnChar '/' path).tail method h
  { r with trees := updateA r.trees method root1 }

/-- The per-segment walk shared by `findHandlerOptimized`
(constraints.go:494-531) and router.go's `findHandler` loop
(router.go:292-318): skip empty parts; try the static child, then the
parameter child (recording the raw part under the child's first parameter
name), then the wildcard child (recording the raw remainder of the path
under "*" and stopping); fail when none exists.  Returns the terminal node
(or `none` on failure) together with the mutated parameter map. -/
def findLoop {α : Type} : RNode α → List String → Params →
    Option (RNode α) × Params
  | cur, [], ps => (some cur, ps)
  | cur, part :: rest, ps =>
    if part == "" then findLoop cur rest ps
    else
      match lookupA cur.children part with
      | some child => findLoop child rest ps
      | none =>
        match lookupA cur.children ":" with
        | some child =>
          let ps1 := match child.params with
            | pname :: _ => updateA ps pname part
            | [] => ps
          findLoop child rest ps1
        | none =>
          match lookupA cur.children "*" with
          | some child =>
            (some child, updateA ps "*" (String.intercalate "/" (part :: rest)))
          | none => (none, ps)

/-- `findHandlerOptimized` (constraints.go:476-539): the root path is
resolved directly against the root node's handlers; otherwise the byte
scan from index 1 — i.e. the parts of `(path.drop 1).splitOn "/"` — walks
the tree and the terminal node's handler for the requested method is
returned. -/
def findHandlerOptimized {α : Type} (root : RNode α) (path method : String)
    (ps : Params) : Option α × Params :=
  if path == "/" then (lookupA root.handlers method, ps)
  else if path.length == 0 then (none, ps)
  else
    match findLoop root (splitOnChar '/' (path.drop 1)) ps with
    | (some cur, ps1) => (lookupA cur.handlers method, ps1)
    | (none, ps1) => (none, ps1)

/-- router.go's `findHandler` (router.go:288-322).  Its walk is the same
as `findLoop`, over `strings.Split(path, "/")[1:]`, but its terminal
lookup is `current.handlers[current.path]` — the node's own path segment
is used as the key into the method-keyed handlers map. -/
def findHandlerRouterGo {α : Type} (root : RNode α) (path : String)
    (ps : Params) : Option α × Params :=
  match findLoop root (splitOnChar '/' path).tail ps with
  | (some cur, ps1) => (lookupA cur.handlers cur.path, ps1)
  | (none, ps1) => (none, ps1)

/-- `Router.GetCachedResponse` (constraints.go:391-405): a stored entry is
returned only while `time.Now().Before(expires)`; an expired entry is
deleted and the lookup misses.  Returns the hit (if any) and the updated
cache. -/
def getCachedResponse (cache : CacheMap) (key : String) (now : Nat) :
    Option CacheEntry × CacheMap :=
  match lookupA cache key with
  | some e =>
    if now < e.expires then (some e, cache) else (none, deleteA cache key)
  | none => (none, cache)

/-- `Router.CacheResponse` (constraints.go:377-389): store an entry under
`key` expiring at `now + duration`. -/
def cacheResponse (cache : CacheMap) (key : String) (response : String)
    (headers : List (String × String)) (code : Nat) (now duration : Nat) :
    CacheMap :=
  updateA cache key ⟨response, headers, code, now + duration⟩

/-- Which terminal outcome a dispatch reached. -/
inductive Branch where
  | cacheHit
  | methodNotAllowed
  | notFound
  | handled
deriving DecidableEq

/-- Ghost observation of one `ServeHTTP` call (constraints.go:407-474):
the branch taken, and how many times the dispatch called
`getContextFromPool` and `putContextToPool`. -/
structure ServeTrace where
  branch : Branch
  ctxAcquires : Nat
  ctxReleases : Nat
deriving DecidableEq

/-- Control flow of the optimized `ServeHTTP` (constraints.go:407-474),
instrumented with the Context-pool calls present on each path:
* a GET whose path hits the response cache returns before any pool call
  (lines 411-420) — zero acquires, zero releases;
* a method with no tree calls `r.notMethod(getContextFromPool(...))` and
  returns with no `putContextToPool` (lines 421-425) — one acquire, zero
  releases;
* otherwise a context is acquired (line 449) with `putContextToPool`
  deferred (line 450), so both the not-found branch and the handled
  branch release exactly once. -/
def serveHTTPTrace {α : Type} (r : Router α) (req : Request) (now : Nat) :
    ServeTrace :=
  if req.method == "GET" &&
      ((getCachedResponse r.cache req.url.path now).1).isSome then
    ⟨.cacheHit, 0, 0⟩
  else
    match lookupA r.trees req.method with
    | none => ⟨.methodNotAllowed, 1, 0⟩
    | some root =>
      match (findHandlerOptimized root req.url.path req.method []).1 with
      | none => ⟨.notFound, 1, 1⟩
      | some _ => ⟨.handled, 1, 1⟩

/-- The pooled `Context` of constraints.go:153-161.  Reference-typed Go
fields are `Option`-valued (`none` is Go `nil`); the response writer, the
body map and the pending-handlers slice are opaque to the claims and are
represented by identifiers. -/
structure CtxState where
  request : Option Request
  response : Option Nat
  params : Option Params
  query : Option (List (String × String))
  body : Option Nat
  index : Int
  handlers : Option (List Nat)
deriving DecidableEq

/-- `getContextFromPool` (constraints.go:179-188): a context taken from
the pool has every field overwritten except `handlers`; `index` is reset
to -1. -/
def getContextFromPool (ctx : CtxState) (req : Request) (w : Nat)
    (ps : Option Params) (q : Option (List (String × String)))
    (b : Option Nat) : CtxState :=
  { ctx with
    request := some req, response := some w, params := ps, query := q,
    body := b, index := -1 }

/-- `putContextToPool` (constraints.go:190-198): every reference-typed
field, the pending-handlers slice included, is set to nil before the
context re-enters the pool. -/
def putContextToPool (ctx : CtxState) : CtxState :=
  { ctx with
    request := none, response := none, params := none, query := none,
    body := none, handlers := none }

/-- The deferred cleanup of the pooled parameter map in `ServeHTTP`
(constraints.go:428-433): every key is deleted before the map returns to
its pool. -/
def paramsPoolClear (ps : Params) : Params :=
  ps.foldl (fun acc kv => deleteA acc kv.1) ps

/-- The middleware-application loop of `ServeHTTP` (constraints.go:460-463,
router.go:275-278): `h := handler; for i := len(mw)-1; i >= 0; i-- { h =
mw[i](h) }`.  The loop wraps with the last middleware first, so the
resulting handler is `mw[0] (mw[1] (... (mw[n-1] terminal)))`; the
recursion below produces exactly that nesting. -/
def applyMiddleware {H : Type} : List (H → H) → H → H
  | [], h => h
  | m :: rest, h => m (applyMiddleware rest h)

/-- The composed handler a dispatch runs: the resolved handler wrapped by
the router-wide middleware list. -/
def dispatchChain {α : Type} (r : Router α) (h : α) : α :=
  applyMiddleware r.middleware h

/-- A route group (`Group`, constraints.go:552-556): a back reference to
the router, the path prefix, and the group's middleware list. -/
structure RGroup (α : Type) where
  router : Router α
  prefixStr : String
  middleware : List (α → α)

/-- `Group.Use` (constraints.go:558-560): append to the group's
middleware list. -/
def RGroup.use {α : Type} (g : RGroup α) (mws : List (α → α)) : RGroup α :=
  { g with middleware := g.middleware ++ mws }

/-- `Group.GET` (constraints.go:562-564): register the handler, as given,
on the router under the concatenated path.  The group's middleware list
is not consulted. -/
def RGroup.get {α : Type} (g : RGroup α) (path : String) (h : α) : RGroup α :=
  { g with router := g.router.handle "GET" (g.prefixStr ++ path) h }

/-- JSON values, as far as the error boundary produces them. -/
inductive Json where
  | num (n : Int)
  | str (s : String)
  | obj (fields : List (String × Json))

/-- The structured error type of constraints.go:223-226 (`Error` with an
HTTP `Code` and a `Message`). -/
structure RxError where
  code : Int
  message : String
deriving DecidableEq

/-- `Error.ToResponse` (constraints.go:232-239): a one-field object whose
"error" field holds the object with the "code" and "message" fields. -/
def RxError.toResponse (e : RxError) : Json :=
  .obj [("error", .obj [("code", .num e.code), ("message", .str e.message)])]

/-- The flat error body claimed by the spec — an object with only the
"code" and "message" fields.  Modelled from the spec's words, for
comparison with `RxError.toResponse`. -/
def specFlatBody (e : RxError) : Json :=
  .obj [("code", .num e.code), ("message", .str e.message)]

/-- A Go `error` value as the dispatcher distinguishes them: either the
structured `*Error` of constraints.go or any other error with its
message. -/
inductive GoError where
  | routix (e : RxError)
  | other (msg : String)
deriving DecidableEq

/-- What the error boundary of `ServeHTTP` (constraints.go:465-473)
writes for a non-nil handler error: for a `*Error` the status is the
error's code and the body is the JSON of `ToResponse`; for any other
error `http.Error` writes status 500 with a plain-text body. -/
def errorBoundary : GoError → Int × Option Json
  | .routix e => (e.code, some e.toResponse)
  | .other _ => (500, none)

/-- What a handler wrote to its response writer: headers, status code and
body bytes. -/
structure Response where
  headers : List (String × String)
  code : Nat
  body : String
deriving DecidableEq

/-- One request through the closure returned by the `Cache` middleware
(middleware.go:255-329), threading the middleware's private cache map.
A non-GET request bypasses the layer; the key is `c.Request.URL.String()`;
a stored, unexpired entry is replayed without running `next`; otherwise
`next` runs against a recorder and, on success only, the captured
response is stored with expiry `now + duration` and replayed.  Returns
the response outcome written to the real writer, the updated cache map,
and whether `next` was invoked. -/
def cacheMw (duration : Nat) (cache : CacheMap) (req : Request) (now : Nat)
    (next : Request → Except GoError Response) :
    Except GoError Response × CacheMap × Bool :=
  if req.method != "GET" then (next req, cache, true)
  else
    let key := urlString req.url
    match lookupA cache key with
    | some cached =>
      if now < cached.expires then
        (.ok ⟨cached.headers, cached.code, cached.response⟩, cache, false)
      else
        match next req with
        | .error e => (.error e, cache, true)
        | .ok resp =>
          (.ok resp,
            updateA cache key ⟨resp.body, resp.headers, resp.code, now + duration⟩,
            true)
    | none =>
      match next req with
      | .error e => (.error e, cache, true)
      | .ok resp =>
        (.ok resp,
          updateA cache key ⟨resp.body, resp.headers, resp.code, now + duration⟩,
          true)

/-- `strings.Cut(s, "=")` as used by `url.ParseQuery`: the text before
the first "=" and the text after it (all of `s` and "" when no "="
occurs). -/
def cutEq (s : String) : String × String :=
  match splitOnChar '=' s with
  | [] => (s, "")
  | k :: rest => (k, String.intercalate "=" rest)

/-- The key/value pairs of `req.URL.Query()` in order of appearance:
the raw query split on "&", empty pieces skipped, each piece cut at its
first "=".  (Percent-decoding is the identity on the inputs the claims
use and is elided.) -/
def parsePairs (rawQuery : String) : List (String × String) :=
  ((splitOnChar '&' rawQuery).filter (fun s => s != "")).map cutEq

/-- All values listed under a key in `req.URL.Query()`, in order. -/
def queryAll (rawQuery k : String) : List String :=
  ((parsePairs rawQuery).filter (fun p => p.1 == k)).map (fun p => p.2)

/-- The query map the optimized `ServeHTTP` puts on the Context
(constraints.go:434-442): nil when the raw query is empty, else the map
sending each key of `req.URL.Query()` to the first of its values
(`query[k] = v[0]`).  The Go map's lookup behaviour is modelled as a
function from keys to optional values. -/
def contextQuery (rawQuery : String) : Option (String → Option String) :=
  if rawQuery == "" then none
  else some fun k => ((parsePairs rawQuery).find? (fun p => p.1 == k)).map
    (fun p => p.2)

/-! Concrete fixtures used by the claim theorems. -/

/-- Handlers that append to a shared log, for observing execution order:
the middleware of §8's ordering scenario logs `name ++ "-before"`, calls
`next`, then logs `name ++ "-after"`. -/
abbrev TraceHandler := List String → List String

def logMw (name : String) : TraceHandler → TraceHandler :=
  fun next log => (next (log ++ [name ++ "-before"])) ++ [name ++ "-after"]

def termH (name : String) : TraceHandler := fun log => log ++ [name]

/-- A router with the single static route `GET /users` (handler id 7). -/
def c1router : Router Nat := Router.empty.handle "GET" "/users" 7

def c1node : RNode Nat := (lookupA c1router.trees "GET").getD RNode.empty

/-- A router with `GET /users/:id` (handler 1) and `GET /users/new`
(handler 2). -/
def c2router : Router Nat :=
  (Router.empty.handle "GET" "/users/:id" 1).handle "GET" "/users/new" 2

def c2node : RNode Nat := (lookupA c2router.trees "GET").getD RNode.empty

/-- A router with `GET /files/*` (handler 3). -/
def c2filesRouter : Router Nat := Router.empty.handle "GET" "/files/*" 3

def c2filesNode : RNode Nat :=
  (lookupA c2filesRouter.trees "GET").getD RNode.empty

/-- A router with `GET /y/:p` (handler 4) and `GET /y/*` (handler 5). -/
def c2yRouter : Router Nat :=
  (Router.empty.handle "GET" "/y/:p" 4).handle "GET" "/y/*" 5

def c2yNode : RNode Nat := (lookupA c2yRouter.trees "GET").getD RNode.empty

/-- A response cache holding one entry, stored under the bare path "/a"
(as `Context.Cache` stores it, key `c.Request.URL.Path`), expiring at
instant 10. -/
def c3cache : CacheMap := [("/a", ⟨"body", [], 200, 10⟩)]

def c3router : Router Nat := { Router.empty with cache := c3cache }

/-- A group with path prefix "/api" and one group middleware (the tracing
wrapper `M`), through which `GET /users` is registered with the tracing
terminal handler `h`. -/
def c5group : RGroup TraceHandler :=
  ((RGroup.mk Router.empty "/api" []).use [logMw "M"]).get "/users" (termH "h")

def c5node : RNode TraceHandler :=
  (lookupA c5group.router.trees "GET").getD RNode.empty

/-- A router with one route `GET /ok` and one cached entry under "/a"
expiring at instant 10, exercising all four dispatch branches. -/
def c6router : Router Nat :=
  { Router.empty.handle "GET" "/ok" 1 with cache := [("/a", ⟨"b", [], 200, 10⟩)] }

/-- The request fixture of the cache-idempotence witness. -/
def c9req : Request := ⟨⟨"/w", ""⟩, "GET"⟩

def c9resp : Response := ⟨[("X", "1")], 200, "ok"⟩

def c9next : Request → Except GoError Response := fun _ => .ok c9resp

/-! Helper lemmas. -/

/-- `find?` returns the head of the filtered list. -/
theorem find_eq_head_filter {γ : Type} (p : γ → Bool) :
    ∀ l : List γ, l.find? p = (l.filter p).head? := by
  intro l
  induction l with
  | nil => rfl
  | cons hd tl ih =>
    by_cases h : p hd
    · rw [List.find?_cons_of_pos _ h, List.filter_cons_of_pos h, List.head?_cons]
    · rw [List.find?_cons_of_neg _ (by simp [h]), List.filter_cons_of_neg (by simp [h]), ih]

/-- Folding `deleteA` over a list removes every entry whose key appears
among the iterated keys. -/
theorem foldl_deleteA_nil (l : Params) :
    ∀ acc : Params, (∀ p ∈ acc, p.1 ∈ l.map Prod.fst) →
      l.foldl (fun a kv => deleteA a kv.1) acc = [] := by
  induction l with
  | nil =>
    intro acc h
    cases acc with
    | nil => rfl
    | cons p rest => exact absurd (h p (List.mem_cons_self p rest)) (by simp)
  | cons hd tl ih =>
    intro acc h
    simp only [List.foldl_cons]
    refine ih (deleteA acc hd.1) ?_
    intro p hp
    have hmem : p ∈ acc ∧ (p.1 != hd.1) = true := by
      simpa [deleteA] using List.mem_filter.mp hp
    have hk : p.1 ∈ (hd :: tl).map Prod.fst := h p hmem.1
    have hne : p.1 ≠ hd.1 := by simpa using hmem.2
    simp only [List.map_cons, List.mem_cons] at hk
    exact hk.resolve_left hne

/-- Every `range`-and-`delete` pass over the pooled parameter map leaves
it empty. -/
theorem paramsPoolClear_eq_nil (ps : Params) : paramsPoolClear ps = [] :=
  foldl_deleteA_nil ps ps (fun _ hp => List.mem_map_of_mem Prod.fst hp)

/-! Claim theorems. -/

/-- Claim C1: with the single static route `GET /users` registered via
`Handle`, `findHandlerOptimized` resolves the exact path and method to the
registered handler, and a request with any other method never reaches a
registered handler (its method has no tree, so dispatch takes the
method-not-allowed branch); but router.go's `findHandler` fails to return
the registered handler even for the exact path and method, because its
terminal lookup keys the method-indexed handlers map by the node's own
path segment. -/
theorem c1_static_route_resolution :
    (findHandlerOptimized c1node "/users" "GET" []).1 = some 7 ∧
    (lookupA c1router.trees "GET").isSome = true ∧
    (lookupA c1router.trees "POST").isSome = false ∧
    serveHTTPTrace c1router ⟨⟨"/users", ""⟩, "POST"⟩ 0 =
      ⟨Branch.methodNotAllowed, 1, 0⟩ ∧
    (findHandlerRouterGo c1node "/users" []).1 = none := by decide

/-- Claim C2: resolution tries the static child first, then the parameter
child, then the wildcard child.  With `/users/:id` and `/users/new` both
registered, `/users/new` resolves to the static handler with no captures;
`/users/42` resolves to the parameterized handler capturing id = "42";
with `/files/*` registered, `/files/a/b/c` resolves to the wildcard
handler capturing "a/b/c" under "*"; and with both `/y/:p` and `/y/*`
registered, `/y/z` takes the parameter child, not the wildcard. -/
theorem c2_resolution_order :
    findHandlerOptimized c2node "/users/new" "GET" [] = (some 2, []) ∧
    findHandlerOptimized c2node "/users/42" "GET" [] =
      (some 1, [("id", "42")]) ∧
    findHandlerOptimized c2filesNode "/files/a/b/c" "GET" [] =
      (some 3, [("*", "a/b/c")]) ∧
    findHandlerOptimized c2yNode "/y/z" "GET" [] = (some 4, [("p", "z")]) := by
  decide

/-- Claim C3, counterexample: the optimized dispatcher's cache lookup is
keyed by `req.URL.Path` alone, not by the full URL.  A GET for
"/a?x=1" hits the entry stored under "/a" even though no entry exists
under the full URL "/a?x=1". -/
theorem c3_counterexample :
    serveHTTPTrace c3router ⟨⟨"/a", "x=1"⟩, "GET"⟩ 5 =
      ⟨Branch.cacheHit, 0, 0⟩ ∧
    lookupA c3cache (urlString ⟨"/a", "x=1"⟩) = none ∧
    urlString ⟨"/a", "x=1"⟩ ≠ "/a" := by decide

/-- Claim C3, amended: a cache lookup hits exactly when an entry exists
under the looked-up key and the current instant is strictly before its
expiry (an expired entry behaves as a miss), and the optimized
dispatcher's lookup key is the request path only — a GET dispatch
short-circuits to the cache-hit branch exactly when the entry stored
under `req.URL.Path` is live. -/
theorem c3_cache_lookup :
    (∀ (cache : CacheMap) (key : String) (now : Nat),
      ((getCachedResponse cache key now).1).isSome = true ↔
        ∃ e, lookupA cache key = some e ∧ now < e.expires) ∧
    (∀ (r : Router Nat) (req : Request) (now : Nat), req.method = "GET" →
      ((serveHTTPTrace r req now).branch = Branch.cacheHit ↔
        ((getCachedResponse r.cache req.url.path now).1).isSome = true)) := by
  constructor
  · intro cache key now
    unfold getCachedResponse
    cases h : lookupA cache key with
    | none => simp [h]
    | some e =>
      by_cases hlt : now < e.expires
      · simp [h, hlt]
      · simp [h, hlt]
  · intro r req now hm
    unfold serveHTTPTrace
    rw [hm]
    by_cases hc : ((getCachedResponse r.cache req.url.path now).1).isSome = true
    · simp [hc]
    · rw [if_neg (by simp [hc])]
      split <;> (try split) <;> simp [hc]

/-- Claim C3, witness for the amended theorem at the concrete router of
the counterexample. -/
theorem c3_cache_lookup_witness :
    (serveHTTPTrace c3router ⟨⟨"/a", "x=1"⟩, "GET"⟩ 5).branch =
        Branch.cacheHit ↔
      ((getCachedResponse c3router.cache "/a" 5).1).isSome = true :=
  c3_cache_lookup.2 c3router ⟨⟨"/a", "x=1"⟩, "GET"⟩ 5 rfl

/-- Claim C4: the middleware-application loop nests the first-listed
middleware outermost and the last-listed innermost,
`mw[0] (mw[1] (mw[2] terminal))`, and the logging middleware A then B
around terminal H therefore produce the trace
A-before, B-before, H, B-after, A-after. -/
theorem c4_onion_order :
    (∀ (H : Type) (m0 m1 m2 : H → H) (h : H),
      applyMiddleware [m0, m1, m2] h = m0 (m1 (m2 h))) ∧
    applyMiddleware [logMw "A", logMw "B"] (termH "H") [] =
      ["A-before", "B-before", "H", "B-after", "A-after"] :=
  ⟨fun _ _ _ _ _ => rfl, by decide⟩

/-- Claim C5: group middleware never wraps anything.  Registering
`GET /users` through a group with prefix "/api" and one group middleware
`M` stores the raw terminal handler; dispatching the composed chain (the
router-wide middleware around the resolved handler) produces the bare
trace ["h"], with no M-before/M-after, although the group's middleware
list does hold the middleware. -/
theorem c5_group_middleware_unused :
    c5group.middleware.length = 1 ∧
    (match (findHandlerOptimized c5node "/api/users" "GET" []).1 with
      | some hh => dispatchChain c5group.router hh []
      | none => ["MISS"]) = ["h"] := by decide

/-- Claim C6: the Context-pool pairing is not symmetric on every exit
path.  A dispatch whose method has no route tree acquires a Context for
the method-not-allowed handler and returns without releasing it
(1 acquire, 0 releases); a cache-hit dispatch acquires nothing; the
not-found and handled paths acquire and release exactly once. -/
theorem c6_release_not_on_every_path :
    serveHTTPTrace c6router ⟨⟨"/x", ""⟩, "DELETE"⟩ 0 =
      ⟨Branch.methodNotAllowed, 1, 0⟩ ∧
    serveHTTPTrace c6router ⟨⟨"/a", ""⟩, "GET"⟩ 5 = ⟨Branch.cacheHit, 0, 0⟩ ∧
    serveHTTPTrace c6router ⟨⟨"/ok", ""⟩, "GET"⟩ 5 = ⟨Branch.handled, 1, 1⟩ ∧
    serveHTTPTrace c6router ⟨⟨"/nope", ""⟩, "GET"⟩ 5 =
      ⟨Branch.notFound, 1, 1⟩ := by decide

/-- Claim C7: releasing a Context nulls every reference-typed field (the
pending-handlers slice included), the range-and-delete pass over the
pooled parameter map empties it, and a Context re-acquired after release
carries only the new request's data — the result of re-acquisition is
independent of the prior contents. -/
theorem c7_pool_cleanliness :
    ∀ (c : CtxState) (req : Request) (w : Nat) (ps : Option Params)
      (q : Option (List (String × String))) (b : Option Nat),
      (putContextToPool c).request = none ∧
      (putContextToPool c).response = none ∧
      (putContextToPool c).params = none ∧
      (putContextToPool c).query = none ∧
      (putContextToPool c).body = none ∧
      (putContextToPool c).handlers = none ∧
      getContextFromPool (putContextToPool c) req w ps q b =
        ⟨some req, some w, ps, q, b, -1, none⟩ ∧
      ∀ pm : Params, paramsPoolClear pm = [] :=
  fun _ _ _ _ _ _ =>
    ⟨rfl, rfl, rfl, rfl, rfl, rfl, rfl, paramsPoolClear_eq_nil⟩

/-- Claim C8, counterexample: the error boundary writes the structured
error's status code, but the JSON body is not the flat
code-and-message object the claim states — `ToResponse` nests that
object under an "error" field. -/
theorem c8_counterexample :
    (errorBoundary (GoError.routix ⟨418, "teapot"⟩)).1 = 418 ∧
    (errorBoundary (GoError.routix ⟨418, "teapot"⟩)).2 ≠
      some (specFlatBody ⟨418, "teapot"⟩) := by
  refine ⟨rfl, ?_⟩
  simp [errorBoundary, RxError.toResponse, specFlatBody]

/-- Claim C8, amended: when a handler or middleware returns the
structured error, the error boundary writes exactly that status code and
the JSON object whose single "error" field holds the object with the
"code" and "message" fields; any other non-nil error produces status 500
(with a plain-text, non-JSON body). -/
theorem c8_error_boundary :
    ∀ (code : Int) (msg s : String),
      errorBoundary (.routix ⟨code, msg⟩) =
        (code, some (Json.obj [("error",
          Json.obj [("code", .num code), ("message", .str msg)])])) ∧
      errorBoundary (.other s) = (500, none) :=
  fun _ _ _ => ⟨rfl, rfl⟩

/-- Claim C9: under the caching middleware with TTL `d`, serving the same
GET request twice within `d` (starting from the middleware's fresh, empty
cache) invokes the terminal handler exactly once — on the first request
but not the second — and the second response equals the first
byte-for-byte in headers, status code and body. -/
theorem c9_cache_idempotent :
    ∀ (d : Nat) (req : Request) (now1 now2 : Nat) (resp : Response)
      (next : Request → Except GoError Response),
      req.method = "GET" → next req = .ok resp → now2 < now1 + d →
      (cacheMw d [] req now1 next).2.2 = true ∧
      (cacheMw d (cacheMw d [] req now1 next).2.1 req now2 next).2.2 =
        false ∧
      (cacheMw d (cacheMw d [] req now1 next).2.1 req now2 next).1 =
        (cacheMw d [] req now1 next).1 ∧
      (cacheMw d [] req now1 next).1 = .ok resp := by
  intro d req now1 now2 resp next hget hnext hlt
  have hm : (req.method != "GET") = false := by simp [hget]
  have h1 : cacheMw d [] req now1 next =
      (.ok resp,
        [(urlString req.url, ⟨resp.body, resp.headers, resp.code, now1 + d⟩)],
        true) := by
    simp [cacheMw, hm, lookupA, updateA, hnext]
  have h2 : cacheMw d (cacheMw d [] req now1 next).2.1 req now2 next =
      (.ok resp,
        [(urlString req.url, ⟨resp.body, resp.headers, resp.code, now1 + d⟩)],
        false) := by
    rw [h1]
    simp [cacheMw, hm, lookupA, hlt]
  rw [h2, h1]
  exact ⟨rfl, rfl, rfl, rfl⟩

/-- Claim C9, witness: the concrete request `GET /w` at instants 0 and 5
with TTL 10. -/
theorem c9_cache_idempotent_witness :
    (cacheMw 10 [] c9req 0 c9next).2.2 = true ∧
    (cacheMw 10 (cacheMw 10 [] c9req 0 c9next).2.1 c9req 5 c9next).2.2 =
      false ∧
    (cacheMw 10 (cacheMw 10 [] c9req 0 c9next).2.1 c9req 5 c9next).1 =
      (cacheMw 10 [] c9req 0 c9next).1 ∧
    (cacheMw 10 [] c9req 0 c9next).1 = .ok c9resp :=
  c9_cache_idempotent 10 c9req 0 5 c9resp c9next rfl rfl (by decide)

/-- Claim C10: the optimized dispatcher's query map is nil exactly when
the raw query string is empty, and otherwise maps every key to the first
of that key's values in the query string — the head of the full value
list, with any further values dropped. -/
theorem c10_query_first_value :
    contextQuery "" = none ∧
    ∀ (rq k : String), rq ≠ "" →
      ∃ f, contextQuery rq = some f ∧ f k = (queryAll rq k).head? := by
  refine ⟨rfl, ?_⟩
  intro rq k hrq
  have hb : (rq == "") = false := by simpa using hrq
  refine ⟨fun k0 => ((parsePairs rq).find? (fun p => p.1 == k0)).map
    (fun p => p.2), ?_, ?_⟩
  · simp [contextQuery, hb]
  · simp only [queryAll, find_eq_head_filter, List.head?_map]

/-- Claim C10, witness: the repeated key "a" in "a=1&a=2" maps to its
first value. -/
theorem c10_query_first_value_witness :
    ("a=1&a=2" ≠ "") ∧
    (∃ f, contextQuery "a=1&a=2" = some f ∧
      f "a" = (queryAll "a=1&a=2" "a").head?) ∧
    (queryAll "a=1&a=2" "a").head? = some "1" :=
  ⟨by decide, c10_query_first_value.2 "a=1&a=2" "a" (by decide), by decide⟩

end Routix
